import Mathlib

/-!
Shallow embedding of the WebRTC signaling server (`src/main.go`) and proofs
about its session-lifecycle state machine.

The Go server keeps three global maps guarded by one mutex:
  `sessions      : map[string]*Session` (session id → session record),
  `userSessions  : map[string]string`   (username → session id, the identity index),
  `wsConnections : map[string]*websocket.Conn` (username → live channel).
Every HTTP handler runs its whole read-modify step under the lock, so each
handler is modelled as one atomic function from state to state.  Notification
sends (`conn.WriteJSON` in a goroutine) are modelled as a list of
`(recipient, event)` pairs emitted by the step; a send happens only when the
recipient has a registered channel, mirroring the `if conn, ok := ...` guards.

Session ids come from `uuid.New()`; they are modelled as natural numbers drawn
from a freshness counter `nextID` (the invariant `freshID` below states that
the counter dominates every stored id, which is the property uuid freshness
provides).  `time.Now()` is modelled as an external `now : Nat` argument to the
create handler.  The opaque signaling payload (`msg.Data`, a JSON object) is
modelled as an opaque string.
-/

namespace WebrtcServer

/-- A finite map used to model Go maps: total function to `Option`. -/
def mapInsert {κ β : Type} [DecidableEq κ] (m : κ → Option β) (k : κ) (v : β) :
    κ → Option β :=
  fun x => if x = k then some v else m x

/-- Removal of a key, modelling Go `delete(m, k)`. -/
def mapErase {κ β : Type} [DecidableEq κ] (m : κ → Option β) (k : κ) :
    κ → Option β :=
  fun x => if x = k then none else m x

/-- The `Session` struct of `src/main.go` (lines 37-44).  `sessionID` is a
`Nat` standing for the uuid string; `createdAt` a `Nat` timestamp. -/
structure Session where
  sessionID : Nat
  caller : String
  target : String
  status : String
  type : String
  createdAt : Nat
deriving DecidableEq, Repr

/-- The `SessionCreateRequest` struct (lines 32-35). -/
structure SessionCreateRequest where
  targetUsername : String
  type : String
deriving DecidableEq, Repr

/-- The opaque signaling payload carried in `msg.Data`. -/
abbrev SignalData : Type := String

/-- Events pushed to a party's websocket channel: `session_updated` with the
full session (create/accept/decline/cancel/disconnect notifications) or
`signal` with the forwarded payload. -/
inductive Event where
  | sessionUpdated (s : Session)
  | signal (d : SignalData)
deriving DecidableEq

/-- A pending asynchronous send: recipient identity and the event. -/
abbrev Notif := String × Event

/-- The errors the handlers fail with (the `http.Error` branches, named after
the spec's error taxonomy; the message strings and HTTP statuses of the code
are recorded in `httpStatus` and `httpMessage`). -/
inductive ApiError where
  | alreadyInSession
  | targetBusy
  | selfTarget
  | noSession
  | sessionNotFound
  | forbidden
  | invalidState
deriving DecidableEq, Repr

/-- The HTTP status code each error branch passes to `http.Error`:
`alreadyInSession` line 169 (`http.StatusBadRequest` = 400), `targetBusy`
line 175 (`http.StatusConflict` = 409), `selfTarget` line 180 (400),
`noSession` lines 228/256/319/372 (`http.StatusNotFound` = 404),
`sessionNotFound` lines 234/262/325/378 (404), `forbidden` lines 267/330
(`http.StatusForbidden` = 403), `invalidState` line 272 (400). -/
def httpStatus : ApiError → Nat
  | .alreadyInSession => 400
  | .targetBusy => 409
  | .selfTarget => 400
  | .noSession => 404
  | .sessionNotFound => 404
  | .forbidden => 403
  | .invalidState => 400

/-- The global mutable state of the server (lines 57-61): the session store,
the identity index, the connection registry (modelled as the set of
identities with a registered channel), and the uuid freshness counter. -/
structure ServerState where
  sessions : Nat → Option Session
  userSessions : String → Option Nat
  wsConnections : String → Bool
  usedIDs : Nat
deriving Inhabited

/-- The uuid allocated by the next `uuid.New()` call, modelled as the first
number the server has never used — unequal to every previously allocated id
(which is exactly what uuid generation provides). -/
def freshUUID (n : Nat) : Nat := n

/-- The state at server startup: all three maps empty. -/
def initState : ServerState where
  sessions := fun _ => none
  userSessions := fun _ => none
  wsConnections := fun _ => false
  usedIDs := 0

/-- `handleCreateSession` (lines 150-212), after auth and JSON decoding:
reject if the caller is already indexed, if the target is indexed, or if the
caller targets itself; otherwise build the pending session, insert it into the
store, index both parties, and notify the target's channel if registered. -/
def handleCreateSession (st : ServerState) (username : String)
    (req : SessionCreateRequest) (now : Nat) :
    Except ApiError (ServerState × Session × List Notif) :=
  if (st.userSessions username).isSome then
    .error .alreadyInSession
  else if (st.userSessions req.targetUsername).isSome then
    .error .targetBusy
  else if req.targetUsername = username then
    .error .selfTarget
  else
    let session : Session :=
      { sessionID := freshUUID st.usedIDs
        caller := username
        target := req.targetUsername
        status := "pending"
        type := req.type
        createdAt := now }
    let st' : ServerState :=
      { st with
        sessions := mapInsert st.sessions session.sessionID session
        userSessions :=
          mapInsert (mapInsert st.userSessions username session.sessionID)
            req.targetUsername session.sessionID
        usedIDs := st.usedIDs + 1 }
    let notifs : List Notif :=
      if st.wsConnections req.targetUsername then
        [(req.targetUsername, Event.sessionUpdated session)]
      else []
    .ok (st', session, notifs)

/-- `handleGetSession` (lines 215-240): read-only lookup through the index. -/
def handleGetSession (st : ServerState) (username : String) :
    Except ApiError Session :=
  match st.userSessions username with
  | none => .error .noSession
  | some sessionID =>
    match st.sessions sessionID with
    | none => .error .sessionNotFound
    | some session => .ok session

/-- `handleAcceptSession` (lines 243-303): requires an index entry, a stored
session, `session.Target == username`, and `session.Status == "pending"`;
then sets the status to `"active"` and notifies both caller and target. -/
def handleAcceptSession (st : ServerState) (username : String) :
    Except ApiError (ServerState × Session × List Notif) :=
  match st.userSessions username with
  | none => .error .noSession
  | some sessionID =>
    match st.sessions sessionID with
    | none => .error .sessionNotFound
    | some session =>
      if session.target ≠ username then
        .error .forbidden
      else if session.status ≠ "pending" then
        .error .invalidState
      else
        let session' : Session := { session with status := "active" }
        let notifs : List Notif :=
          (if st.wsConnections session'.caller then
            [(session'.caller, Event.sessionUpdated session')]
          else []) ++
          (if st.wsConnections session'.target then
            [(session'.target, Event.sessionUpdated session')]
          else [])
        .ok ({ st with sessions := mapInsert st.sessions sessionID session' },
          session', notifs)

/-- `handleDeclineSession` (lines 306-356): requires an index entry, a stored
session, and `session.Target == username` (no status check); sets the status
to `"declined"`, notifies the caller, then deletes the session and both index
entries (`delete(userSessions, username)`, `delete(userSessions, caller)`,
`delete(sessions, sessionID)`). -/
def handleDeclineSession (st : ServerState) (username : String) :
    Except ApiError (ServerState × Session × List Notif) :=
  match st.userSessions username with
  | none => .error .noSession
  | some sessionID =>
    match st.sessions sessionID with
    | none => .error .sessionNotFound
    | some session =>
      if session.target ≠ username then
        .error .forbidden
      else
        let session' : Session := { session with status := "declined" }
        let caller := session'.caller
        let notifs : List Notif :=
          if st.wsConnections caller then
            [(caller, Event.sessionUpdated session')]
          else []
        .ok ({ st with
            userSessions := mapErase (mapErase st.userSessions username) caller
            sessions := mapErase st.sessions sessionID },
          session', notifs)

/-- `handleCancelSession` (lines 359-408): requires an index entry and a
stored session; no Forbidden check.  Sets the status to `"cancelled"`,
computes the other party (`otherUser := session.Target; if session.Caller !=
username { otherUser = session.Caller }`), notifies it, then deletes the
session and both index entries. -/
def handleCancelSession (st : ServerState) (username : String) :
    Except ApiError (ServerState × Session × List Notif) :=
  match st.userSessions username with
  | none => .error .noSession
  | some sessionID =>
    match st.sessions sessionID with
    | none => .error .sessionNotFound
    | some session =>
      let session' : Session := { session with status := "cancelled" }
      let otherUser :=
        if session'.caller ≠ username then session'.caller else session'.target
      let notifs : List Notif :=
        if st.wsConnections otherUser then
          [(otherUser, Event.sessionUpdated session')]
        else []
      .ok ({ st with
          userSessions := mapErase (mapErase st.userSessions username) otherUser
          sessions := mapErase st.sessions sessionID },
        session', notifs)

/-- Registration of a live channel on websocket connect
(`wsConnections[username] = conn`, line 435). -/
def handleConnect (st : ServerState) (username : String) : ServerState :=
  { st with
    wsConnections := fun u => if u = username then true else st.wsConnections u }

/-- The `signal` branch of the websocket receive loop (lines 448-480): under
the read lock, resolve the sender's session; drop the message if the sender
has no index entry, the session is missing, or its status is not `"active"`;
otherwise forward the payload verbatim as a `signal` event to the counterpart
(`otherUser := session.Target; if session.Target == username { otherUser =
session.Caller }`), provided the counterpart has a registered channel.  The
state is not mutated. -/
def relaySignal (st : ServerState) (username : String) (payload : SignalData) :
    List Notif :=
  match st.userSessions username with
  | none => []
  | some sessionID =>
    match st.sessions sessionID with
    | none => []
    | some session =>
      if session.status ≠ "active" then []
      else
        let otherUser :=
          if session.target = username then session.caller else session.target
        if st.wsConnections otherUser then
          [(otherUser, Event.signal payload)]
        else []

/-- The disconnect cleanup at the end of `handleWebSocket` (lines 483-513):
unconditionally unregister the channel; if the identity is indexed and the
session is stored, set the status to `"disconnected"`, notify the other party
if reachable, and delete the session and both index entries.  Returns only
the new state and the pending sends — no value is surfaced to a caller. -/
def handleDisconnect (st : ServerState) (username : String) :
    ServerState × List Notif :=
  let st1 : ServerState :=
    { st with
      wsConnections := fun u => if u = username then false else st.wsConnections u }
  match st.userSessions username with
  | none => (st1, [])
  | some sessionID =>
    match st.sessions sessionID with
    | none => (st1, [])
    | some session =>
      let session' : Session := { session with status := "disconnected" }
      let otherUser :=
        if session'.target = username then session'.caller else session'.target
      let notifs : List Notif :=
        if st1.wsConnections otherUser then
          [(otherUser, Event.sessionUpdated session')]
        else []
      ({ st1 with
          userSessions := mapErase (mapErase st1.userSessions username) otherUser
          sessions := mapErase st1.sessions sessionID },
        notifs)

/-- One observable operation against the server. -/
inductive Op where
  | create (username : String) (req : SessionCreateRequest) (now : Nat)
  | accept (username : String)
  | decline (username : String)
  | cancel (username : String)
  | connect (username : String)
  | disconnect (username : String)
  | signal (username : String) (payload : SignalData)

/-- The state after one atomic operation.  A handler that fails leaves the
state untouched (in the code, every `http.Error` branch returns before any
mutation).  `signal` relays under the read lock and never mutates. -/
def step (st : ServerState) (op : Op) : ServerState :=
  match op with
  | .create u req now =>
    match handleCreateSession st u req now with
    | .ok (st', _, _) => st'
    | .error _ => st
  | .accept u =>
    match handleAcceptSession st u with
    | .ok (st', _, _) => st'
    | .error _ => st
  | .decline u =>
    match handleDeclineSession st u with
    | .ok (st', _, _) => st'
    | .error _ => st
  | .cancel u =>
    match handleCancelSession st u with
    | .ok (st', _, _) => st'
    | .error _ => st
  | .connect u => handleConnect st u
  | .disconnect u => (handleDisconnect st u).1
  | .signal _ _ => st

/-- The states reachable from startup by any sequence of operations. -/
inductive Reachable : ServerState → Prop where
  | init : Reachable initState
  | next {st : ServerState} (op : Op) : Reachable st → Reachable (step st op)

@[simp]
theorem mapInsert_self {κ β : Type} [DecidableEq κ] (m : κ → Option β) (k : κ)
    (v : β) : mapInsert m k v k = some v := by
  simp [mapInsert]

theorem mapInsert_ne {κ β : Type} [DecidableEq κ] (m : κ → Option β) {k x : κ}
    (v : β) (h : x ≠ k) : mapInsert m k v x = m x := by
  simp [mapInsert, h]

theorem mapInsert_eq_some {κ β : Type} [DecidableEq κ] {m : κ → Option β}
    {k x : κ} {v w : β} :
    mapInsert m k v x = some w ↔ (x = k ∧ w = v) ∨ (x ≠ k ∧ m x = some w) := by
  unfold mapInsert
  split
  · simp_all [eq_comm]
  · simp_all

@[simp]
theorem mapErase_self {κ β : Type} [DecidableEq κ] (m : κ → Option β) (k : κ) :
    mapErase m k k = none := by
  simp [mapErase]

theorem mapErase_ne {κ β : Type} [DecidableEq κ] (m : κ → Option β) {k x : κ}
    (h : x ≠ k) : mapErase m k x = m x := by
  simp [mapErase, h]

theorem mapErase_eq_some {κ β : Type} [DecidableEq κ] {m : κ → Option β}
    {k x : κ} {w : β} :
    mapErase m k x = some w ↔ x ≠ k ∧ m x = some w := by
  unfold mapErase
  split
  · simp_all
  · simp_all

/-- The data-model invariants of the store and identity index (spec §3,
invariants 1-4), plus the freshness guarantee of the uuid counter:
every index entry resolves to a stored session naming that identity as a
party (1); every stored session has index entries for both its parties
(lockstep maintenance, implies 2); `caller ≠ target` (3); stored sessions are
never terminal (4); stored ids are dominated by the allocation counter. -/
structure Inv (st : ServerState) : Prop where
  indexSound : ∀ u sid, st.userSessions u = some sid →
    ∃ s, st.sessions sid = some s ∧ (s.caller = u ∨ s.target = u)
  storeCaller : ∀ sid s, st.sessions sid = some s →
    st.userSessions s.caller = some sid
  storeTarget : ∀ sid s, st.sessions sid = some s →
    st.userSessions s.target = some sid
  noSelf : ∀ sid s, st.sessions sid = some s → s.caller ≠ s.target
  nonTerminal : ∀ sid s, st.sessions sid = some s →
    s.status = "pending" ∨ s.status = "active"
  freshID : ∀ sid s, st.sessions sid = some s → sid < st.usedIDs

/-- The startup state satisfies the invariants. -/
theorem inv_init : Inv initState := by
  constructor <;> intro u sid h <;> simp [initState] at h

/-- The invariants only concern the store, the index and the counter, so an
update of the connection registry preserves them. -/
theorem inv_ws {st : ServerState} (hInv : Inv st) (w : String → Bool) :
    Inv { st with wsConnections := w } :=
  ⟨hInv.indexSound, hInv.storeCaller, hInv.storeTarget, hInv.noSelf,
    hInv.nonTerminal, hInv.freshID⟩

@[simp]
theorem freshUUID_eq (n : Nat) : freshUUID n = n := rfl

/-- Core of invariant preservation for `handleCreateSession`: inserting a
fresh pending session for two unindexed, distinct identities keeps `Inv`. -/
theorem inv_create_core {st : ServerState} (hInv : Inv st) {u tgt ty : String}
    {now : Nat} (hu : st.userSessions u = none)
    (ht : st.userSessions tgt = none) (hne : ¬tgt = u) :
    Inv { st with
      sessions := mapInsert st.sessions (freshUUID st.usedIDs)
        { sessionID := freshUUID st.usedIDs, caller := u, target := tgt,
          status := "pending", type := ty, createdAt := now }
      userSessions :=
        mapInsert (mapInsert st.userSessions u (freshUUID st.usedIDs)) tgt
          (freshUUID st.usedIDs)
      usedIDs := st.usedIDs + 1 } := by
  constructor
  · intro x sid h
    simp only [freshUUID_eq] at h ⊢
    rcases mapInsert_eq_some.1 h with ⟨hx, hsid⟩ | ⟨hx, h2⟩
    · subst hx; subst hsid
      exact ⟨_, mapInsert_self _ _ _, Or.inr rfl⟩
    · rcases mapInsert_eq_some.1 h2 with ⟨hx2, hsid⟩ | ⟨hx2, h3⟩
      · subst hx2; subst hsid
        exact ⟨_, mapInsert_self _ _ _, Or.inl rfl⟩
      · obtain ⟨s, hs, hparty⟩ := hInv.indexSound x sid h3
        refine ⟨s, ?_, hparty⟩
        rw [mapInsert_ne _ _ (Nat.ne_of_lt (hInv.freshID sid s hs))]
        exact hs
  · intro sid s h
    simp only [freshUUID_eq] at h ⊢
    rcases mapInsert_eq_some.1 h with ⟨hsid, hsv⟩ | ⟨hsid, h2⟩
    · subst hsid; subst hsv
      rw [mapInsert_ne _ _ (Ne.symm hne), mapInsert_self]
    · have hc := hInv.storeCaller sid s h2
      have hct : ¬s.caller = tgt := fun hEq => by rw [hEq, ht] at hc; cases hc
      have hcu : ¬s.caller = u := fun hEq => by rw [hEq, hu] at hc; cases hc
      rw [mapInsert_ne _ _ hct, mapInsert_ne _ _ hcu]
      exact hc
  · intro sid s h
    simp only [freshUUID_eq] at h ⊢
    rcases mapInsert_eq_some.1 h with ⟨hsid, hsv⟩ | ⟨hsid, h2⟩
    · subst hsid; subst hsv
      rw [mapInsert_self]
    · have hc := hInv.storeTarget sid s h2
      have hct : ¬s.target = tgt := fun hEq => by rw [hEq, ht] at hc; cases hc
      have hcu : ¬s.target = u := fun hEq => by rw [hEq, hu] at hc; cases hc
      rw [mapInsert_ne _ _ hct, mapInsert_ne _ _ hcu]
      exact hc
  · intro sid s h
    rcases mapInsert_eq_some.1 h with ⟨hsid, hsv⟩ | ⟨hsid, h2⟩
    · subst hsv
      exact fun hEq => hne hEq.symm
    · exact hInv.noSelf sid s h2
  · intro sid s h
    rcases mapInsert_eq_some.1 h with ⟨hsid, hsv⟩ | ⟨hsid, h2⟩
    · subst hsv; exact Or.inl rfl
    · exact hInv.nonTerminal sid s h2
  · intro sid s h
    simp only [freshUUID_eq] at h ⊢
    rcases mapInsert_eq_some.1 h with ⟨hsid, hsv⟩ | ⟨hsid, h2⟩
    · subst hsid; exact Nat.lt_succ_self _
    · exact Nat.lt_succ_of_lt (hInv.freshID sid s h2)

/-- A successful `handleCreateSession` preserves the invariants. -/
theorem inv_create {st : ServerState} (hInv : Inv st) {u : String}
    {req : SessionCreateRequest} {now : Nat}
    {st' : ServerState} {s : Session} {ns : List Notif}
    (h : handleCreateSession st u req now = .ok (st', s, ns)) : Inv st' := by
  unfold handleCreateSession at h
  split at h
  · exact absurd h (by simp)
  split at h
  · exact absurd h (by simp)
  split at h
  · exact absurd h (by simp)
  rename_i h1 h2 h3
  rw [Option.not_isSome_iff_eq_none] at h1 h2
  injection h with h
  injection h with hst h
  subst hst
  exact inv_create_core hInv h1 h2 h3

/-- Core of invariant preservation for `handleAcceptSession`: overwriting a
stored session with the same record at status `"active"` keeps `Inv`. -/
theorem inv_accept_core {st : ServerState} (hInv : Inv st) {sid : Nat}
    {s : Session} (hs : st.sessions sid = some s) :
    Inv { st with
      sessions := mapInsert st.sessions sid { s with status := "active" } } := by
  constructor
  · intro x sid' h
    replace h : st.userSessions x = some sid' := h
    obtain ⟨t, ht, hparty⟩ := hInv.indexSound x sid' h
    by_cases hEq : sid' = sid
    · refine ⟨{ s with status := "active" }, ?_, ?_⟩
      · show mapInsert st.sessions sid { s with status := "active" } sid' = _
        rw [hEq, mapInsert_self]
      · rw [hEq, hs] at ht
        injection ht with ht
        subst ht
        exact hparty
    · refine ⟨t, ?_, hparty⟩
      show mapInsert st.sessions sid { s with status := "active" } sid' = some t
      rw [mapInsert_ne _ _ hEq]
      exact ht
  · intro sid' t h
    replace h : mapInsert st.sessions sid { s with status := "active" } sid' = some t := h
    show st.userSessions t.caller = some sid'
    rcases mapInsert_eq_some.1 h with ⟨hEq, hv⟩ | ⟨hEq, h2⟩
    · subst hv
      rw [hEq]
      exact hInv.storeCaller sid s hs
    · exact hInv.storeCaller sid' t h2
  · intro sid' t h
    replace h : mapInsert st.sessions sid { s with status := "active" } sid' = some t := h
    show st.userSessions t.target = some sid'
    rcases mapInsert_eq_some.1 h with ⟨hEq, hv⟩ | ⟨hEq, h2⟩
    · subst hv
      rw [hEq]
      exact hInv.storeTarget sid s hs
    · exact hInv.storeTarget sid' t h2
  · intro sid' t h
    replace h : mapInsert st.sessions sid { s with status := "active" } sid' = some t := h
    rcases mapInsert_eq_some.1 h with ⟨hEq, hv⟩ | ⟨hEq, h2⟩
    · subst hv
      exact hInv.noSelf sid s hs
    · exact hInv.noSelf sid' t h2
  · intro sid' t h
    replace h : mapInsert st.sessions sid { s with status := "active" } sid' = some t := h
    rcases mapInsert_eq_some.1 h with ⟨hEq, hv⟩ | ⟨hEq, h2⟩
    · subst hv
      exact Or.inr rfl
    · exact hInv.nonTerminal sid' t h2
  · intro sid' t h
    replace h : mapInsert st.sessions sid { s with status := "active" } sid' = some t := h
    show sid' < st.usedIDs
    rcases mapInsert_eq_some.1 h with ⟨hEq, hv⟩ | ⟨hEq, h2⟩
    · rw [hEq]
      exact hInv.freshID sid s hs
    · exact hInv.freshID sid' t h2

/-- A successful `handleAcceptSession` preserves the invariants. -/
theorem inv_accept {st : ServerState} (hInv : Inv st) {u : String}
    {st' : ServerState} {s' : Session} {ns : List Notif}
    (h : handleAcceptSession st u = .ok (st', s', ns)) : Inv st' := by
  unfold handleAcceptSession at h
  split at h
  · exact absurd h (by simp)
  rename_i sid hsid
  split at h
  · exact absurd h (by simp)
  rename_i s hs
  split at h
  · exact absurd h (by simp)
  split at h
  · exact absurd h (by simp)
  injection h with h
  injection h with hst h
  subst hst
  exact inv_accept_core hInv hs

/-- Core of invariant preservation for the terminal transitions: deleting a
stored session together with the index entries of both its parties keeps
`Inv`, whatever becomes of the connection registry. -/
theorem inv_remove_core {st : ServerState} (hInv : Inv st) {sid : Nat}
    {s : Session} (hs : st.sessions sid = some s) {a b : String}
    (hab : a = s.caller ∧ b = s.target ∨ a = s.target ∧ b = s.caller)
    (w : String → Bool) :
    Inv { st with
      sessions := mapErase st.sessions sid
      userSessions := mapErase (mapErase st.userSessions a) b
      wsConnections := w } := by
  have hasid : st.userSessions a = some sid := by
    rcases hab with ⟨ha, _⟩ | ⟨ha, _⟩
    · rw [ha]; exact hInv.storeCaller sid s hs
    · rw [ha]; exact hInv.storeTarget sid s hs
  have hbsid : st.userSessions b = some sid := by
    rcases hab with ⟨_, hb⟩ | ⟨_, hb⟩
    · rw [hb]; exact hInv.storeTarget sid s hs
    · rw [hb]; exact hInv.storeCaller sid s hs
  have hmem : ∀ x : String, x ≠ a → x ≠ b → ¬(s.caller = x ∨ s.target = x) := by
    intro x hxa hxb hor
    rcases hab with ⟨ha, hb⟩ | ⟨ha, hb⟩ <;> rcases hor with hc | hc <;> simp_all
  constructor
  · intro x sid' h
    replace h : mapErase (mapErase st.userSessions a) b x = some sid' := h
    rcases mapErase_eq_some.1 h with ⟨hxb, h2⟩
    rcases mapErase_eq_some.1 h2 with ⟨hxa, h3⟩
    obtain ⟨t, ht, hparty⟩ := hInv.indexSound x sid' h3
    have hne : sid' ≠ sid := by
      intro hEq
      rw [hEq, hs] at ht
      injection ht with ht
      subst ht
      exact hmem x hxa hxb hparty
    refine ⟨t, ?_, hparty⟩
    show mapErase st.sessions sid sid' = some t
    rw [mapErase_ne _ hne]
    exact ht
  · intro sid' t h
    replace h : mapErase st.sessions sid sid' = some t := h
    rcases mapErase_eq_some.1 h with ⟨hne, h2⟩
    have hc := hInv.storeCaller sid' t h2
    have hca : t.caller ≠ a := fun hEq => by
      rw [hEq, hasid] at hc
      injection hc with hc
      exact hne hc.symm
    have hcb : t.caller ≠ b := fun hEq => by
      rw [hEq, hbsid] at hc
      injection hc with hc
      exact hne hc.symm
    show mapErase (mapErase st.userSessions a) b t.caller = some sid'
    rw [mapErase_ne _ hcb, mapErase_ne _ hca]
    exact hc
  · intro sid' t h
    replace h : mapErase st.sessions sid sid' = some t := h
    rcases mapErase_eq_some.1 h with ⟨hne, h2⟩
    have hc := hInv.storeTarget sid' t h2
    have hca : t.target ≠ a := fun hEq => by
      rw [hEq, hasid] at hc
      injection hc with hc
      exact hne hc.symm
    have hcb : t.target ≠ b := fun hEq => by
      rw [hEq, hbsid] at hc
      injection hc with hc
      exact hne hc.symm
    show mapErase (mapErase st.userSessions a) b t.target = some sid'
    rw [mapErase_ne _ hcb, mapErase_ne _ hca]
    exact hc
  · intro sid' t h
    replace h : mapErase st.sessions sid sid' = some t := h
    rcases mapErase_eq_some.1 h with ⟨hne, h2⟩
    exact hInv.noSelf sid' t h2
  · intro sid' t h
    replace h : mapErase st.sessions sid sid' = some t := h
    rcases mapErase_eq_some.1 h with ⟨hne, h2⟩
    exact hInv.nonTerminal sid' t h2
  · intro sid' t h
    replace h : mapErase st.sessions sid sid' = some t := h
    rcases mapErase_eq_some.1 h with ⟨hne, h2⟩
    exact hInv.freshID sid' t h2

/-- A successful `handleDeclineSession` preserves the invariants. -/
theorem inv_decline {st : ServerState} (hInv : Inv st) {u : String}
    {st' : ServerState} {s' : Session} {ns : List Notif}
    (h : handleDeclineSession st u = .ok (st', s', ns)) : Inv st' := by
  unfold handleDeclineSession at h
  split at h
  · exact absurd h (by simp)
  rename_i sid hsid
  split at h
  · exact absurd h (by simp)
  rename_i s hs
  split at h
  · exact absurd h (by simp)
  rename_i htgt
  have htgt2 : s.target = u := of_not_not htgt
  injection h with h
  injection h with hst h
  subst hst
  exact inv_remove_core hInv hs (Or.inr ⟨htgt2.symm, rfl⟩) st.wsConnections

/-- A successful `handleCancelSession` preserves the invariants. -/
theorem inv_cancel {st : ServerState} (hInv : Inv st) {u : String}
    {st' : ServerState} {s' : Session} {ns : List Notif}
    (h : handleCancelSession st u = .ok (st', s', ns)) : Inv st' := by
  unfold handleCancelSession at h
  split at h
  · exact absurd h (by simp)
  rename_i sid hsid
  split at h
  · exact absurd h (by simp)
  rename_i s hs
  injection h with h
  injection h with hst h
  subst hst
  obtain ⟨t, ht, hparty⟩ := hInv.indexSound u sid hsid
  rw [hs] at ht
  injection ht with ht
  subst ht
  have hOr : u = s.caller ∧ (if s.caller ≠ u then s.caller else s.target) = s.target ∨
      u = s.target ∧ (if s.caller ≠ u then s.caller else s.target) = s.caller := by
    by_cases hc : s.caller = u
    · exact Or.inl ⟨hc.symm, if_neg (not_not_intro hc)⟩
    · rcases hparty with hx | hx
      · exact absurd hx hc
      · exact Or.inr ⟨hx.symm, if_pos hc⟩
  exact inv_remove_core hInv hs hOr st.wsConnections

/-- `handleDisconnect` preserves the invariants. -/
theorem inv_disconnect {st : ServerState} (hInv : Inv st) (u : String) :
    Inv (handleDisconnect st u).1 := by
  unfold handleDisconnect
  rcases hsid : st.userSessions u with _ | sid
  · simp only [hsid]
    exact inv_ws hInv _
  simp only [hsid]
  rcases hs : st.sessions sid with _ | s
  · simp only [hs]
    exact inv_ws hInv _
  simp only [hs]
  obtain ⟨t, ht, hparty⟩ := hInv.indexSound u sid hsid
  rw [hs] at ht
  injection ht with ht
  subst ht
  have hOr : u = s.caller ∧ (if s.target = u then s.caller else s.target) = s.target ∨
      u = s.target ∧ (if s.target = u then s.caller else s.target) = s.caller := by
    by_cases hc : s.target = u
    · exact Or.inr ⟨hc.symm, if_pos hc⟩
    · rcases hparty with hx | hx
      · exact Or.inl ⟨hx.symm, if_neg hc⟩
      · exact absurd hx hc
  exact inv_remove_core (inv_ws hInv _) hs hOr _

/-- Every atomic operation preserves the invariants. -/
theorem inv_step {st : ServerState} (hInv : Inv st) (op : Op) :
    Inv (step st op) := by
  cases op with
  | create u req now =>
    simp only [step]
    rcases hE : handleCreateSession st u req now with e | ⟨st', s, ns⟩
    · exact hInv
    · exact inv_create hInv hE
  | accept u =>
    simp only [step]
    rcases hE : handleAcceptSession st u with e | ⟨st', s, ns⟩
    · exact hInv
    · exact inv_accept hInv hE
  | decline u =>
    simp only [step]
    rcases hE : handleDeclineSession st u with e | ⟨st', s, ns⟩
    · exact hInv
    · exact inv_decline hInv hE
  | cancel u =>
    simp only [step]
    rcases hE : handleCancelSession st u with e | ⟨st', s, ns⟩
    · exact hInv
    · exact inv_cancel hInv hE
  | connect u => exact inv_ws hInv _
  | disconnect u => exact inv_disconnect hInv u
  | signal u p => exact hInv

/-- Every reachable state satisfies the invariants. -/
theorem inv_reachable {st : ServerState} (h : Reachable st) : Inv st := by
  induction h with
  | init => exact inv_init
  | next op _ ih => exact inv_step ih op

/-- The invariant exactly as claim C1 states it: every index entry resolves
to a stored session naming that identity; no identity maps to two ids; no
stored session is self-directed; no stored session carries a terminal
status. -/
def SpecInvariant (st : ServerState) : Prop :=
  (∀ u sid, st.userSessions u = some sid →
    ∃ s, st.sessions sid = some s ∧ (s.caller = u ∨ s.target = u)) ∧
  (∀ u sid1 sid2, st.userSessions u = some sid1 →
    st.userSessions u = some sid2 → sid1 = sid2) ∧
  (∀ sid s, st.sessions sid = some s →
    s.caller ≠ s.target ∧ s.status ≠ "declined" ∧ s.status ≠ "cancelled" ∧
      s.status ≠ "disconnected")

/-- C1: in every state reachable by any sequence of operations, every session
id in the identity index resolves to an existing session whose caller or
target is that identity, no identity maps to more than one session id,
`caller ≠ target` for every stored session, and no stored session has a
terminal status (terminal transitions remove the session and both index
entries in the same atomic step). -/
theorem C1_lifecycle_invariants (st : ServerState) (h : Reachable st) :
    SpecInvariant st := by
  obtain ⟨hIdx, _, _, hns, hnt, _⟩ := inv_reachable h
  refine ⟨hIdx, ?_, ?_⟩
  · intro u sid1 sid2 h1 h2
    rw [h1] at h2
    injection h2
  · intro sid s hs
    refine ⟨hns sid s hs, ?_, ?_, ?_⟩ <;>
      rcases hnt sid s hs with h1 | h1 <;> rw [h1] <;> decide

/-- Witness for C1 at the state reached by one successful create. -/
theorem C1_lifecycle_invariants_witness :
    SpecInvariant (step initState (Op.create "alice" ⟨"bob", "video"⟩ 0)) :=
  C1_lifecycle_invariants _ (Reachable.next _ Reachable.init)

/-- C2: for distinct unindexed identities A and B, create succeeds, stores a
pending session with caller A and target B, indexes both identities to its
id, returns it, and afterwards `handleGetSession` returns that same session
for both A and B. -/
theorem C2_create_success (st : ServerState) (A B kind : String) (now : Nat)
    (hA : st.userSessions A = none) (hB : st.userSessions B = none)
    (hAB : A ≠ B) :
    ∃ st' s ns, handleCreateSession st A ⟨B, kind⟩ now = .ok (st', s, ns) ∧
      s.status = "pending" ∧ s.caller = A ∧ s.target = B ∧ s.type = kind ∧
      st'.sessions s.sessionID = some s ∧
      st'.userSessions A = some s.sessionID ∧
      st'.userSessions B = some s.sessionID ∧
      handleGetSession st' A = .ok s ∧ handleGetSession st' B = .ok s := by
  have hBA : ¬B = A := fun hEq => hAB hEq.symm
  unfold handleCreateSession
  rw [hA, hB]
  simp only [Option.isSome_none, Bool.false_eq_true, if_false, hBA]
  refine ⟨_, _, _, rfl, rfl, rfl, rfl, rfl, mapInsert_self _ _ _, ?_, ?_, ?_, ?_⟩
  · show mapInsert (mapInsert st.userSessions A _) B _ A = _
    rw [mapInsert_ne _ _ hAB, mapInsert_self]
  · show mapInsert (mapInsert st.userSessions A _) B _ B = _
    rw [mapInsert_self]
  · show handleGetSession _ A = _
    unfold handleGetSession
    have h1 : (mapInsert (mapInsert st.userSessions A (freshUUID st.usedIDs)) B
        (freshUUID st.usedIDs)) A = some (freshUUID st.usedIDs) := by
      rw [mapInsert_ne _ _ hAB, mapInsert_self]
    have h2 : mapInsert st.sessions (freshUUID st.usedIDs)
        { sessionID := freshUUID st.usedIDs, caller := A, target := B,
          status := "pending", type := kind, createdAt := now }
        (freshUUID st.usedIDs) = some
        { sessionID := freshUUID st.usedIDs, caller := A, target := B,
          status := "pending", type := kind, createdAt := now } :=
      mapInsert_self _ _ _
    simp only [h1, h2]
  · show handleGetSession _ B = _
    unfold handleGetSession
    have h1 : (mapInsert (mapInsert st.userSessions A (freshUUID st.usedIDs)) B
        (freshUUID st.usedIDs)) B = some (freshUUID st.usedIDs) :=
      mapInsert_self _ _ _
    have h2 : mapInsert st.sessions (freshUUID st.usedIDs)
        { sessionID := freshUUID st.usedIDs, caller := A, target := B,
          status := "pending", type := kind, createdAt := now }
        (freshUUID st.usedIDs) = some
        { sessionID := freshUUID st.usedIDs, caller := A, target := B,
          status := "pending", type := kind, createdAt := now } :=
      mapInsert_self _ _ _
    simp only [h1, h2]

/-- Witness for C2 on the empty state with identities "alice" and "bob". -/
theorem C2_create_success_witness :
    ∃ st' s ns,
      handleCreateSession initState "alice" ⟨"bob", "video"⟩ 0 =
        .ok (st', s, ns) ∧
      s.status = "pending" ∧ s.caller = "alice" ∧ s.target = "bob" ∧
      s.type = "video" ∧
      st'.sessions s.sessionID = some s ∧
      st'.userSessions "alice" = some s.sessionID ∧
      st'.userSessions "bob" = some s.sessionID ∧
      handleGetSession st' "alice" = .ok s ∧ handleGetSession st' "bob" = .ok s :=
  C2_create_success initState "alice" "bob" "video" 0 rfl rfl (by decide)

/-- `handleGetSession` fails with `noSession` for an unindexed identity. -/
theorem getSession_none {st : ServerState} {u : String}
    (h : st.userSessions u = none) :
    handleGetSession st u = .error .noSession := by
  unfold handleGetSession
  rw [h]

/-- C3: accept fails with `noSession` without an index entry, with
`sessionNotFound` on a stale index entry, with `forbidden` for a non-target
actor, and with `invalidState` when the status is not pending; every failure
leaves the state unchanged.  When all preconditions hold it sets the status
to `"active"`, returns the session, and leaves the index and all other store
entries untouched. -/
theorem C3_accept_behavior (st : ServerState) (actor : String) :
    (st.userSessions actor = none →
      handleAcceptSession st actor = .error .noSession ∧
      step st (.accept actor) = st) ∧
    (∀ sid, st.userSessions actor = some sid → st.sessions sid = none →
      handleAcceptSession st actor = .error .sessionNotFound ∧
      step st (.accept actor) = st) ∧
    (∀ sid s, st.userSessions actor = some sid → st.sessions sid = some s →
      s.target ≠ actor →
      handleAcceptSession st actor = .error .forbidden ∧
      step st (.accept actor) = st) ∧
    (∀ sid s, st.userSessions actor = some sid → st.sessions sid = some s →
      s.target = actor → s.status ≠ "pending" →
      handleAcceptSession st actor = .error .invalidState ∧
      step st (.accept actor) = st) ∧
    (∀ sid s, st.userSessions actor = some sid → st.sessions sid = some s →
      s.target = actor → s.status = "pending" →
      ∃ st' ns,
        handleAcceptSession st actor =
          .ok (st', { s with status := "active" }, ns) ∧
        st'.sessions sid = some { s with status := "active" } ∧
        st'.userSessions = st.userSessions ∧
        st'.wsConnections = st.wsConnections ∧
        (∀ sid', sid' ≠ sid → st'.sessions sid' = st.sessions sid')) := by
  refine ⟨?_, ?_, ?_, ?_, ?_⟩
  · intro h
    have hE : handleAcceptSession st actor = .error .noSession := by
      unfold handleAcceptSession
      rw [h]
    exact ⟨hE, by simp only [step, hE]⟩
  · intro sid hsid hs
    have hE : handleAcceptSession st actor = .error .sessionNotFound := by
      unfold handleAcceptSession
      simp only [hsid, hs]
    exact ⟨hE, by simp only [step, hE]⟩
  · intro sid s hsid hs htgt
    have hE : handleAcceptSession st actor = .error .forbidden := by
      unfold handleAcceptSession
      simp only [hsid, hs]
      rw [if_pos htgt]
    exact ⟨hE, by simp only [step, hE]⟩
  · intro sid s hsid hs htgt hstat
    have hE : handleAcceptSession st actor = .error .invalidState := by
      unfold handleAcceptSession
      simp only [hsid, hs]
      rw [if_neg (not_not_intro htgt), if_pos hstat]
    exact ⟨hE, by simp only [step, hE]⟩
  · intro sid s hsid hs htgt hstat
    unfold handleAcceptSession
    simp only [hsid, hs]
    rw [if_neg (not_not_intro htgt), if_neg (not_not_intro hstat)]
    refine ⟨_, _, rfl, mapInsert_self _ _ _, rfl, rfl, ?_⟩
    intro sid' hne
    exact mapInsert_ne _ _ hne

/-- Witness for C3: on the state after create "alice" → "bob", accept by the
caller "alice" fails with `forbidden` and changes nothing. -/
theorem C3_accept_behavior_witness :
    handleAcceptSession (step initState (Op.create "alice" ⟨"bob", "video"⟩ 0))
      "alice" = .error .forbidden ∧
    step (step initState (Op.create "alice" ⟨"bob", "video"⟩ 0))
      (.accept "alice") =
      step initState (Op.create "alice" ⟨"bob", "video"⟩ 0) :=
  (C3_accept_behavior _ "alice").2.2.1 0
    ⟨0, "alice", "bob", "pending", "video", 0⟩ (by decide) (by decide)
    (by decide)

/-- C4: cancel fails with `noSession` (and changes nothing) when the actor is
unindexed; in any reachable state, for every stored session having the actor
as caller or target — whatever its status — cancel succeeds with no
`forbidden` check, returns the `"cancelled"` snapshot, removes the session
from the store and both parties from the index, and afterwards
`handleGetSession` fails with `noSession` for either party. -/
theorem C4_cancel_behavior (st : ServerState) (actor : String)
    (hR : Reachable st) :
    (st.userSessions actor = none →
      handleCancelSession st actor = .error .noSession ∧
      step st (.cancel actor) = st) ∧
    (∀ sid s, st.sessions sid = some s →
      s.caller = actor ∨ s.target = actor →
      ∃ st' ns,
        handleCancelSession st actor =
          .ok (st', { s with status := "cancelled" }, ns) ∧
        st'.sessions sid = none ∧
        st'.userSessions s.caller = none ∧ st'.userSessions s.target = none ∧
        handleGetSession st' s.caller = .error .noSession ∧
        handleGetSession st' s.target = .error .noSession) := by
  have hInv := inv_reachable hR
  refine ⟨?_, ?_⟩
  · intro h
    have hE : handleCancelSession st actor = .error .noSession := by
      unfold handleCancelSession
      rw [h]
    exact ⟨hE, by simp only [step, hE]⟩
  · intro sid s hs hparty
    have hsid : st.userSessions actor = some sid := by
      rcases hparty with hc | hc
      · rw [← hc]; exact hInv.storeCaller sid s hs
      · rw [← hc]; exact hInv.storeTarget sid s hs
    have hct := hInv.noSelf sid s hs
    unfold handleCancelSession
    simp only [hsid, hs]
    by_cases hc : s.caller = actor
    · rw [if_neg (not_not_intro hc)]
      have hcnone : mapErase (mapErase st.userSessions actor) s.target
          s.caller = none := by
        rw [mapErase_ne _ hct, hc, mapErase_self]
      have htnone : mapErase (mapErase st.userSessions actor) s.target
          s.target = none := mapErase_self _ _
      exact ⟨_, _, rfl, mapErase_self _ _, hcnone, htnone,
        getSession_none hcnone, getSession_none htnone⟩
    · have htgt : s.target = actor := by
        rcases hparty with hx | hx
        · exact absurd hx hc
        · exact hx
      rw [if_pos hc]
      have hcnone : mapErase (mapErase st.userSessions actor) s.caller
          s.caller = none := mapErase_self _ _
      have htnone : mapErase (mapErase st.userSessions actor) s.caller
          s.target = none := by
        rw [mapErase_ne _ (fun hEq => hct hEq.symm), htgt, mapErase_self]
      exact ⟨_, _, rfl, mapErase_self _ _, hcnone, htnone,
        getSession_none hcnone, getSession_none htnone⟩

/-- Witness for C4: the caller "alice" cancels the pending session it opened
to "bob"; both parties then have no session. -/
theorem C4_cancel_behavior_witness :
    ∃ st' ns,
      handleCancelSession (step initState (Op.create "alice" ⟨"bob", "video"⟩ 0))
        "alice" =
        .ok (st', ⟨0, "alice", "bob", "cancelled", "video", 0⟩, ns) ∧
      st'.sessions 0 = none ∧
      st'.userSessions "alice" = none ∧ st'.userSessions "bob" = none ∧
      handleGetSession st' "alice" = .error .noSession ∧
      handleGetSession st' "bob" = .error .noSession :=
  (C4_cancel_behavior _ "alice" (Reachable.next _ Reachable.init)).2 0
    ⟨0, "alice", "bob", "pending", "video", 0⟩ (by decide) (Or.inl rfl)

/-- Erasing two keys in a row removes the first key. -/
theorem mapErase2_left {κ β : Type} [DecidableEq κ] (m : κ → Option β)
    (a b : κ) : mapErase (mapErase m a) b a = none := by
  by_cases h : a = b
  · rw [h, mapErase_self]
  · rw [mapErase_ne _ h, mapErase_self]

/-- C5: decline fails with `noSession` without an index entry, with
`sessionNotFound` on a stale index entry, and with `forbidden` unless the
actor is the session's target; there is no status precondition, so whenever
the actor is the target it succeeds — for a pending or an active session
alike — sets the status to `"declined"`, deletes the session from the store
and both parties from the index, and returns the declined snapshot. -/
theorem C5_decline_behavior (st : ServerState) (actor : String) :
    (st.userSessions actor = none →
      handleDeclineSession st actor = .error .noSession ∧
      step st (.decline actor) = st) ∧
    (∀ sid, st.userSessions actor = some sid → st.sessions sid = none →
      handleDeclineSession st actor = .error .sessionNotFound ∧
      step st (.decline actor) = st) ∧
    (∀ sid s, st.userSessions actor = some sid → st.sessions sid = some s →
      s.target ≠ actor →
      handleDeclineSession st actor = .error .forbidden ∧
      step st (.decline actor) = st) ∧
    (∀ sid s, st.userSessions actor = some sid → st.sessions sid = some s →
      s.target = actor →
      ∃ st' ns,
        handleDeclineSession st actor =
          .ok (st', { s with status := "declined" }, ns) ∧
        st'.sessions sid = none ∧
        st'.userSessions actor = none ∧ st'.userSessions s.caller = none ∧
        handleGetSession st' actor = .error .noSession ∧
        handleGetSession st' s.caller = .error .noSession) := by
  refine ⟨?_, ?_, ?_, ?_⟩
  · intro h
    have hE : handleDeclineSession st actor = .error .noSession := by
      unfold handleDeclineSession
      rw [h]
    exact ⟨hE, by simp only [step, hE]⟩
  · intro sid hsid hs
    have hE : handleDeclineSession st actor = .error .sessionNotFound := by
      unfold handleDeclineSession
      simp only [hsid, hs]
    exact ⟨hE, by simp only [step, hE]⟩
  · intro sid s hsid hs htgt
    have hE : handleDeclineSession st actor = .error .forbidden := by
      unfold handleDeclineSession
      simp only [hsid, hs]
      rw [if_pos htgt]
    exact ⟨hE, by simp only [step, hE]⟩
  · intro sid s hsid hs htgt
    unfold handleDeclineSession
    simp only [hsid, hs]
    rw [if_neg (not_not_intro htgt)]
    have hanone : mapErase (mapErase st.userSessions actor) s.caller
        actor = none := mapErase2_left _ _ _
    have hcnone : mapErase (mapErase st.userSessions actor) s.caller
        s.caller = none := mapErase_self _ _
    exact ⟨_, _, rfl, mapErase_self _ _, hanone, hcnone,
      getSession_none hanone, getSession_none hcnone⟩

/-- Witness for C5: after "bob" accepts the session from "alice" (status
`"active"`), decline by the target "bob" still succeeds — there is no
pending-status precondition — and empties the store and index. -/
theorem C5_decline_behavior_witness :
    ∃ st' ns,
      handleDeclineSession
        (step (step initState (Op.create "alice" ⟨"bob", "video"⟩ 0))
          (Op.accept "bob")) "bob" =
        .ok (st', ⟨0, "alice", "bob", "declined", "video", 0⟩, ns) ∧
      st'.sessions 0 = none ∧
      st'.userSessions "bob" = none ∧ st'.userSessions "alice" = none ∧
      handleGetSession st' "bob" = .error .noSession ∧
      handleGetSession st' "alice" = .error .noSession :=
  (C5_decline_behavior _ "bob").2.2.2 0
    ⟨0, "alice", "bob", "active", "video", 0⟩ (by decide) (by decide) rfl

/-- C6: in any reachable state, a `signal` from a sender with no index entry,
with a stale index entry, or with a session whose status is not `"active"`
delivers nothing; with an active session it forwards the payload verbatim as
a `signal` event to exactly the counterpart identity (the target when the
sender is the caller, else the caller) — to its channel when registered, to
nobody otherwise — and mutates nothing. -/
theorem C6_relay_behavior (st : ServerState) (sender : String) (p : SignalData)
    (hR : Reachable st) :
    (st.userSessions sender = none → relaySignal st sender p = []) ∧
    (∀ sid, st.userSessions sender = some sid → st.sessions sid = none →
      relaySignal st sender p = []) ∧
    (∀ sid s, st.userSessions sender = some sid → st.sessions sid = some s →
      s.status ≠ "active" → relaySignal st sender p = []) ∧
    (∀ sid s, st.userSessions sender = some sid → st.sessions sid = some s →
      s.status = "active" →
      ∃ other, other = (if s.target = sender then s.caller else s.target) ∧
        (s.caller = sender → other = s.target) ∧
        (s.target = sender → other = s.caller) ∧
        relaySignal st sender p =
          (if st.wsConnections other then [(other, Event.signal p)] else [])) ∧
    step st (.signal sender p) = st := by
  have hInv := inv_reachable hR
  refine ⟨?_, ?_, ?_, ?_, rfl⟩
  · intro h
    unfold relaySignal
    rw [h]
  · intro sid hsid hs
    unfold relaySignal
    simp only [hsid, hs]
  · intro sid s hsid hs hstat
    unfold relaySignal
    simp only [hsid, hs]
    rw [if_pos hstat]
  · intro sid s hsid hs hstat
    unfold relaySignal
    simp only [hsid, hs]
    rw [if_neg (not_not_intro hstat)]
    refine ⟨_, rfl, ?_, ?_, rfl⟩
    · intro hc
      by_cases ht : s.target = sender
      · exact absurd (hc.trans ht.symm) (hInv.noSelf sid s hs)
      · rw [if_neg ht]
    · intro ht
      rw [if_pos ht]

/-- Witness for C6: on the pending session from "alice" to "bob" (status not
yet `"active"`), a signal from "alice" delivers nothing. -/
theorem C6_relay_behavior_witness :
    relaySignal (step initState (Op.create "alice" ⟨"bob", "video"⟩ 0))
      "alice" "offer" = [] :=
  ((C6_relay_behavior _ "alice" "offer"
    (Reachable.next _ Reachable.init)).2.2.1) 0
    ⟨0, "alice", "bob", "pending", "video", 0⟩ (by decide) (by decide)
    (by decide)

/-- In every branch, `handleDisconnect` leaves the connection registry equal
to the old one with the actor's channel removed. -/
theorem disconnect_ws (st : ServerState) (u : String) :
    (handleDisconnect st u).1.wsConnections =
      fun x => if x = u then false else st.wsConnections x := by
  unfold handleDisconnect
  rcases hsid : st.userSessions u with _ | sid
  · simp only [hsid]
  · simp only [hsid]
    rcases hs : st.sessions sid with _ | s
    · simp only [hs]
    · simp only [hs]

/-- C7: disconnect always unregisters the actor's channel; with no index
entry, or a stale one, the store and index are untouched and nothing is
sent; with an indexed stored session it deletes the session and both
parties' index entries — so `handleGetSession` fails with `noSession` for
either party — and the notification (sent to the other party only if its
channel is registered) carries the snapshot with status `"disconnected"`.
No value is returned to any caller: the operation produces only the new
state and the pending sends. -/
theorem C7_disconnect_behavior (st : ServerState) (actor : String)
    (hR : Reachable st) :
    ((handleDisconnect st actor).1.wsConnections actor = false) ∧
    (st.userSessions actor = none →
      (handleDisconnect st actor).1.sessions = st.sessions ∧
      (handleDisconnect st actor).1.userSessions = st.userSessions ∧
      (handleDisconnect st actor).2 = []) ∧
    (∀ sid, st.userSessions actor = some sid → st.sessions sid = none →
      (handleDisconnect st actor).1.sessions = st.sessions ∧
      (handleDisconnect st actor).1.userSessions = st.userSessions ∧
      (handleDisconnect st actor).2 = []) ∧
    (∀ sid s, st.userSessions actor = some sid → st.sessions sid = some s →
      ∃ other, other = (if s.target = actor then s.caller else s.target) ∧
        other ≠ actor ∧
        (handleDisconnect st actor).1.sessions sid = none ∧
        (handleDisconnect st actor).1.userSessions s.caller = none ∧
        (handleDisconnect st actor).1.userSessions s.target = none ∧
        handleGetSession (handleDisconnect st actor).1 s.caller =
          .error .noSession ∧
        handleGetSession (handleDisconnect st actor).1 s.target =
          .error .noSession ∧
        (handleDisconnect st actor).2 =
          (if st.wsConnections other then
            [(other, Event.sessionUpdated { s with status := "disconnected" })]
          else [])) := by
  have hInv := inv_reachable hR
  refine ⟨?_, ?_, ?_, ?_⟩
  · rw [disconnect_ws]
    simp
  · intro h
    unfold handleDisconnect
    simp [h]
  · intro sid hsid hs
    unfold handleDisconnect
    simp [hsid, hs]
  · intro sid s hsid hs
    obtain ⟨t, ht, hparty⟩ := hInv.indexSound actor sid hsid
    rw [hs] at ht
    injection ht with ht
    subst ht
    have hct := hInv.noSelf sid s hs
    unfold handleDisconnect
    simp only [hsid, hs]
    by_cases htgt : s.target = actor
    · rw [if_pos htgt]
      have hoa : s.caller ≠ actor := fun hEq => hct (hEq.trans htgt.symm)
      have hcnone : mapErase (mapErase st.userSessions actor) s.caller
          s.caller = none := mapErase_self _ _
      have htnone : mapErase (mapErase st.userSessions actor) s.caller
          s.target = none := by
        rw [htgt]
        exact mapErase2_left _ _ _
      refine ⟨s.caller, rfl, hoa, mapErase_self _ _, hcnone, htnone,
        getSession_none hcnone, getSession_none htnone, ?_⟩
      rw [if_neg hoa]
    · rw [if_neg htgt]
      have hc : s.caller = actor := by
        rcases hparty with hx | hx
        · exact hx
        · exact absurd hx htgt
      have hcnone : mapErase (mapErase st.userSessions actor) s.target
          s.caller = none := by
        rw [hc]
        exact mapErase2_left _ _ _
      have htnone : mapErase (mapErase st.userSessions actor) s.target
          s.target = none := mapErase_self _ _
      refine ⟨s.target, rfl, htgt, mapErase_self _ _, hcnone, htnone,
        getSession_none hcnone, getSession_none htnone, ?_⟩
      rw [if_neg htgt]

/-- Witness for C7: "alice" disconnects while its session with "bob" is
pending; the channel is unregistered, the store and index are emptied, and
both parties subsequently have no session. -/
theorem C7_disconnect_behavior_witness :
    ∃ other, other = "bob" ∧ other ≠ "alice" ∧
      (handleDisconnect (step initState (Op.create "alice" ⟨"bob", "video"⟩ 0))
        "alice").1.sessions 0 = none ∧
      (handleDisconnect (step initState (Op.create "alice" ⟨"bob", "video"⟩ 0))
        "alice").1.userSessions "alice" = none ∧
      (handleDisconnect (step initState (Op.create "alice" ⟨"bob", "video"⟩ 0))
        "alice").1.userSessions "bob" = none ∧
      handleGetSession
        (handleDisconnect (step initState (Op.create "alice" ⟨"bob", "video"⟩ 0))
          "alice").1 "alice" = .error .noSession ∧
      handleGetSession
        (handleDisconnect (step initState (Op.create "alice" ⟨"bob", "video"⟩ 0))
          "alice").1 "bob" = .error .noSession ∧
      (handleDisconnect (step initState (Op.create "alice" ⟨"bob", "video"⟩ 0))
        "alice").2 =
        (if (step initState (Op.create "alice" ⟨"bob", "video"⟩ 0)).wsConnections
            "bob" then
          [("bob", Event.sessionUpdated
            ⟨0, "alice", "bob", "disconnected", "video", 0⟩)]
        else []) :=
  (C7_disconnect_behavior _ "alice" (Reachable.next _ Reachable.init)).2.2.2 0
    ⟨0, "alice", "bob", "pending", "video", 0⟩ (by decide) (by decide)

/-- C8: create fails with `alreadyInSession` whenever the initiator is
indexed, with `targetBusy` when only the target is indexed, and with
`selfTarget` when neither is indexed and the initiator targets itself; every
failing create leaves the state — store, index and registry — unchanged. -/
theorem C8_create_failures (st : ServerState) (initiator tgt kind : String)
    (now : Nat) :
    ((st.userSessions initiator).isSome →
      handleCreateSession st initiator ⟨tgt, kind⟩ now =
        .error .alreadyInSession) ∧
    (st.userSessions initiator = none → (st.userSessions tgt).isSome →
      handleCreateSession st initiator ⟨tgt, kind⟩ now = .error .targetBusy) ∧
    (st.userSessions initiator = none → st.userSessions tgt = none →
      initiator = tgt →
      handleCreateSession st initiator ⟨tgt, kind⟩ now = .error .selfTarget) ∧
    (∀ e, handleCreateSession st initiator ⟨tgt, kind⟩ now = .error e →
      step st (.create initiator ⟨tgt, kind⟩ now) = st) := by
  refine ⟨?_, ?_, ?_, ?_⟩
  · intro h
    unfold handleCreateSession
    rw [if_pos h]
  · intro h1 h2
    unfold handleCreateSession
    rw [h1]
    simp only [Option.isSome_none, Bool.false_eq_true, if_false]
    rw [if_pos h2]
  · intro h1 h2 h3
    unfold handleCreateSession
    rw [h1, h2]
    simp only [Option.isSome_none, Bool.false_eq_true, if_false]
    rw [if_pos h3.symm]
  · intro e h
    simp only [step, h]

/-- Witness for C8: with the "alice" → "bob" session pending, a second create
by "alice" (to "carol") fails with `alreadyInSession`. -/
theorem C8_create_failures_witness :
    handleCreateSession (step initState (Op.create "alice" ⟨"bob", "video"⟩ 0))
      "alice" ⟨"carol", "video"⟩ 1 = .error .alreadyInSession :=
  (C8_create_failures _ "alice" "carol" "video" 1).1 (by decide)

/-- Refutation for C9 as stated: the claim maps `AlreadyInSession` to
conflict (409), but the code's branch (`src/main.go` line 169) passes
`http.StatusBadRequest`, so the surfaced status is 400, not 409. -/
theorem C9_claimed_mapping_false :
    httpStatus ApiError.alreadyInSession = 400 ∧
    httpStatus ApiError.alreadyInSession ≠ 409 := by
  decide

/-- C9 (amended): the boundary layer's error-to-status mapping is
`alreadyInSession` → bad request (400), `targetBusy` → conflict (409),
`selfTarget`/`invalidState` → bad request (400), `forbidden` → forbidden
(403), and `noSession`/`sessionNotFound` → not found (404). -/
theorem C9_error_status_mapping :
    httpStatus ApiError.alreadyInSession = 400 ∧
    httpStatus ApiError.targetBusy = 409 ∧
    httpStatus ApiError.selfTarget = 400 ∧
    httpStatus ApiError.invalidState = 400 ∧
    httpStatus ApiError.forbidden = 403 ∧
    httpStatus ApiError.noSession = 404 ∧
    httpStatus ApiError.sessionNotFound = 404 := by
  decide

/-- C10: beyond the three precondition checks, create validates nothing: for
any unindexed initiator, any unindexed target string different from it —
including the empty string — and absolutely any kind string, create succeeds
and stores the target and kind verbatim, indexing the target string like a
real identity. -/
theorem C10_create_no_validation (st : ServerState)
    (initiator tgt kind : String) (now : Nat)
    (h1 : st.userSessions initiator = none)
    (h2 : st.userSessions tgt = none) (h3 : ¬tgt = initiator) :
    ∃ st' ns,
      handleCreateSession st initiator ⟨tgt, kind⟩ now =
        .ok (st',
          { sessionID := freshUUID st.usedIDs, caller := initiator,
            target := tgt, status := "pending", type := kind,
            createdAt := now }, ns) ∧
      st'.userSessions tgt = some (freshUUID st.usedIDs) ∧
      st'.sessions (freshUUID st.usedIDs) = some
        { sessionID := freshUUID st.usedIDs, caller := initiator,
          target := tgt, status := "pending", type := kind,
          createdAt := now } := by
  unfold handleCreateSession
  rw [h1, h2]
  simp only [Option.isSome_none, Bool.false_eq_true, if_false, h3]
  exact ⟨_, _, rfl, mapInsert_self _ _ _, mapInsert_self _ _ _⟩

/-- Witness for C10: create with the empty string as target and the empty
string as kind — neither "video" nor "audio" — succeeds and stores both
verbatim. -/
theorem C10_create_no_validation_witness :
    ∃ st' ns,
      handleCreateSession initState "alice" ⟨"", ""⟩ 7 =
        .ok (st', ⟨0, "alice", "", "pending", "", 7⟩, ns) ∧
      st'.userSessions "" = some 0 ∧
      st'.sessions 0 = some ⟨0, "alice", "", "pending", "", 7⟩ :=
  C10_create_no_validation initState "alice" "" "" 7 rfl rfl (by decide)

end WebrtcServer
